import Mathlib

/-!
Shallow embedding of `src/route_optimizer.py` (class `RouteOptimizer`).

Modelling conventions:
* Python floats are modelled as real numbers (`ℝ`).
* `random.uniform(1.2, 1.3)` in `calculate_route_metrics` is modelled by an
  explicit factor parameter `f` (the drawn value); claims about it carry the
  hypothesis `1.2 ≤ f ≤ 1.3`.
* `datetime.now()` in `calculate_optimal_route` is modelled by an explicit
  time parameter `t` (in minutes); `timedelta(minutes := m)` adds `m` to it.
* Python `round(x)` / `round(x, k)` is modelled as rounding half-up to the
  nearest integer / `10 ^ (-k)` (Python uses round-half-to-even on binary
  floats; the two agree except exactly at ties, and every property proved
  below holds for either convention).
* Python `bin` dicts are modelled by the structure `Bin`; the keys that
  `calculate_optimal_route` adds to the dicts in place are `Option` fields
  that are `none` while the key is absent.
* The in-place `for`-loop of `calculate_optimal_route` (lines 114-121 of the
  source), which writes `estimated_time`, `sequence` and `arrival_time` into
  the stop dicts, is modelled by `annotate_stops`.  Because Python's
  `bins.copy()` in `nearest_neighbor_algorithm` is a shallow copy, those stop
  dicts are the very objects the caller passed in, so the post-call contents
  of the caller's records are exactly the annotated stops.
* The `while` loop of `nearest_neighbor_algorithm` is modelled by the fueled
  recursion `nn_go` with fuel equal to the pool length (each iteration removes
  exactly one element, so this fuel is exact).
-/

/-- A GPS coordinate pair `[lat, lon]` in decimal degrees. -/
structure GeoPoint where
  lat : ℝ
  lon : ℝ

noncomputable instance : DecidableEq GeoPoint := Classical.decEq _

/-- A collection-point record (a `bin` dict).  The three trailing `Option`
fields are the keys that `calculate_optimal_route` writes into the dict in
place; `none` models the key being absent. -/
structure Bin where
  id : String
  name : String
  coordinates : GeoPoint
  fill_level : ℤ
  waste_type : String
  estimated_time : Option ℝ := none
  sequence : Option ℕ := none
  arrival_time : Option ℝ := none

noncomputable instance : DecidableEq Bin := Classical.decEq _

/-- The identity-relevant content of a collection-point record: every field
the caller supplied (the optimizer-added annotation keys excluded). -/
def Bin.core (b : Bin) : String × String × GeoPoint × ℤ × String :=
  (b.id, b.name, b.coordinates, b.fill_level, b.waste_type)

/-- `self.base_location = [-23.5505, -46.6333]` (São Paulo center). -/
noncomputable def base_location : GeoPoint := ⟨-23.5505, -46.6333⟩

/-- `self.avg_speed_kmh = 25`. -/
noncomputable def avg_speed_kmh : ℝ := 25

/-- `self.service_time_minutes = 8`. -/
noncomputable def service_time_minutes : ℝ := 8

/-- `math.radians`: degrees to radians. -/
noncomputable def radians (x : ℝ) : ℝ := x * (Real.pi / 180)

/-- `calculate_distance`: haversine distance in km between two coordinates. -/
noncomputable def calculate_distance (coord1 coord2 : GeoPoint) : ℝ :=
  let lat1 := radians coord1.lat
  let lon1 := radians coord1.lon
  let lat2 := radians coord2.lat
  let lon2 := radians coord2.lon
  let dlat := lat2 - lat1
  let dlon := lon2 - lon1
  let a := Real.sin (dlat / 2) ^ 2 +
    Real.cos lat1 * Real.cos lat2 * Real.sin (dlon / 2) ^ 2
  let c := 2 * Real.arcsin (Real.sqrt a)
  c * 6371

/-- Python `round(x)` (to an integer, reported as a float). -/
noncomputable def pyround0 (x : ℝ) : ℝ := (round x : ℤ)

/-- Python `round(x, 1)`. -/
noncomputable def pyround1 (x : ℝ) : ℝ := ((round (x * 10) : ℤ) : ℝ) / 10

/-- Python `round(x, 2)`. -/
noncomputable def pyround2 (x : ℝ) : ℝ := ((round (x * 100) : ℤ) : ℝ) / 100

/-- Python's `min(iterable, key=...)` on a nonempty list `b :: bs`: fold over
the tail, replacing the current minimum only on a strictly smaller key, so the
first element attaining the minimal key is returned. -/
noncomputable def min_by_key (cur : GeoPoint) (b : Bin) (bs : List Bin) : Bin :=
  bs.foldl (fun acc x =>
    if calculate_distance cur x.coordinates < calculate_distance cur acc.coordinates
    then x else acc) b

/-- The `while unvisited_bins:` loop of `nearest_neighbor_algorithm`, fueled:
pick the nearest bin (`min(...)`), append it, move there, and `remove` it from
the pool.  The fuel is exact when it equals the pool length. -/
noncomputable def nn_go : ℕ → GeoPoint → List Bin → List Bin
  | 0, _, _ => []
  | _ + 1, _, [] => []
  | fuel + 1, cur, b :: bs =>
    let nearest := min_by_key cur b bs
    nearest :: nn_go fuel nearest.coordinates ((b :: bs).erase nearest)

/-- The nearest-neighbor loop started on a pool, with exact fuel. -/
noncomputable def nn_loop (cur : GeoPoint) (pool : List Bin) : List Bin :=
  nn_go pool.length cur pool

/-- `nearest_neighbor_algorithm`: greedy nearest-neighbor sequencing starting
from the base location. -/
noncomputable def nearest_neighbor_algorithm (bins : List Bin) : List Bin :=
  if bins.isEmpty then [] else nn_loop base_location bins

/-- Sum of haversine leg distances along a path starting at `cur`. -/
noncomputable def path_distance : GeoPoint → List GeoPoint → ℝ
  | _, [] => 0
  | cur, c :: cs => calculate_distance cur c + path_distance c cs

/-- The `total_distance` accumulated by the loop of `calculate_route_metrics`
(lines 60-74): base → each stop in order → back to base, before the final
display rounding. -/
noncomputable def total_distance_raw (route : List Bin) : ℝ :=
  path_distance base_location (route.map (fun b => b.coordinates) ++ [base_location])

/-- The route-metrics dict.  Mandatory fields are the keys present in every
returned dict; `Option` fields are keys only some code paths add. -/
structure RouteMetrics where
  total_distance : ℝ
  estimated_time : ℝ
  fuel_savings : ℝ
  coordinates : List GeoPoint
  stops : List Bin
  travel_time : Option ℝ := none
  service_time : Option ℝ := none
  route_generated_at : Option ℝ := none
  number_of_stops : Option ℕ := none
  optimization_algorithm : Option String := none
  route_efficiency_score : Option ℝ := none
  truck_id : Option String := none
  truck_name : Option String := none
  driver : Option String := none

/-- The all-zero dict returned by `calculate_route_metrics` and
`calculate_optimal_route` on empty input (lines 52-58 and 100-106). -/
noncomputable def empty_metrics : RouteMetrics :=
  { total_distance := 0
    estimated_time := 0
    fuel_savings := 0
    coordinates := []
    stops := [] }

/-- `calculate_route_metrics`, with the `random.uniform(1.2, 1.3)` draw passed
in as `f`. -/
noncomputable def calculate_route_metrics (route : List Bin) (f : ℝ) : RouteMetrics :=
  if route.isEmpty then empty_metrics
  else
    let total_distance := total_distance_raw route
    let travel_time := total_distance / avg_speed_kmh * 60
    let service_time := (route.length : ℝ) * service_time_minutes
    let total_time := travel_time + service_time
    let non_optimized_distance := total_distance * f
    let fuel_savings :=
      (non_optimized_distance - total_distance) / non_optimized_distance * 100
    { total_distance := pyround1 total_distance
      estimated_time := pyround0 total_time
      fuel_savings := pyround1 fuel_savings
      coordinates := base_location :: (route.map (fun b => b.coordinates) ++ [base_location])
      stops := route
      travel_time := some (pyround0 travel_time)
      service_time := some service_time }

/-- One iteration of the annotation loop of `calculate_optimal_route`
(lines 115-121): write `estimated_time`, `sequence` and `arrival_time` into
stop `i` of `n`, where `tt` is the dict's (rounded) `travel_time` and `t` is
`datetime.now()` in minutes. -/
noncomputable def annotate_stop (t tt : ℝ) (n i : ℕ) (s : Bin) : Bin :=
  { s with
    estimated_time := some service_time_minutes
    sequence := some (i + 1)
    arrival_time := some (t + (service_time_minutes * i + tt * ((i : ℝ) / (n : ℝ)))) }

/-- The `for i, stop in enumerate(route_metrics['stops'])` annotation loop. -/
noncomputable def annotate_stops (t tt : ℝ) (n : ℕ) : ℕ → List Bin → List Bin
  | _, [] => []
  | i, s :: ss => annotate_stop t tt n i s :: annotate_stops t tt n (i + 1) ss

/-- `calculate_optimal_route`, with the random factor `f` and the wall clock
`t` passed in.  The stop dicts being annotated are (by Python aliasing) the
caller's own input records, so `(calculate_optimal_route bins f t).stops` is
also the post-call contents of the caller's records. -/
noncomputable def calculate_optimal_route (bins : List Bin) (f t : ℝ) : RouteMetrics :=
  if bins.isEmpty then empty_metrics
  else
    let optimized_route := nearest_neighbor_algorithm bins
    let route_metrics := calculate_route_metrics optimized_route f
    let tt := route_metrics.travel_time.getD 0
    let n := route_metrics.stops.length
    { route_metrics with
      stops := annotate_stops t tt n 0 route_metrics.stops
      route_generated_at := some t
      number_of_stops := some bins.length
      optimization_algorithm := some "nearest_neighbor"
      route_efficiency_score := some (min 95 (70 + route_metrics.fuel_savings)) }

/-- The `route_metrics.update({...})` of `optimize_multi_truck_routes`
(lines 172-176), tagging a plan with vehicle `k` (1-based). -/
noncomputable def add_truck_fields (m : RouteMetrics) (k : ℕ) : RouteMetrics :=
  { m with
    truck_id := some ("truck_" ++ toString k)
    truck_name := some ("Caminhão " ++ toString k)
    driver := some ("Motorista " ++ toString k) }

/-- The slice of bins handed to vehicle `i` of `n` (lines 164-168):
`bins[i*q : i*q+q]`, except the last vehicle takes `bins[i*q:]`. -/
def truck_slice (bins : List Bin) (n q i : ℕ) : List Bin :=
  if i = n - 1 then bins.drop (i * q) else (bins.drop (i * q)).take q

/-- All `n` vehicle slices, with `q = len(bins) // n`. -/
def truck_slices (bins : List Bin) (n : ℕ) : List (List Bin) :=
  (List.range n).map (truck_slice bins n (bins.length / n))

/-- `optimize_multi_truck_routes`, with the random factor `f` and wall clock
`t` passed through to each per-truck `calculate_optimal_route` call. -/
noncomputable def optimize_multi_truck_routes (bins : List Bin) (num_trucks : ℤ)
    (f t : ℝ) : List RouteMetrics :=
  if bins.isEmpty ∨ num_trucks ≤ 0 then []
  else
    let n := num_trucks.toNat
    let q := bins.length / n
    (List.range n).filterMap (fun truck_id =>
      let truck_bins := truck_slice bins n q truck_id
      if truck_bins.isEmpty then none
      else some (add_truck_fields (calculate_optimal_route truck_bins f t) (truck_id + 1)))

/-- The dict returned by `calculate_environmental_impact`. -/
structure EnvironmentalImpact where
  fuel_consumed_liters : ℝ
  fuel_saved_liters : ℝ
  co2_emitted_kg : ℝ
  co2_saved_kg : ℝ
  environmental_score : ℝ

/-- `calculate_environmental_impact` (lines 181-202). -/
noncomputable def calculate_environmental_impact (route_metrics : RouteMetrics) :
    EnvironmentalImpact :=
  let total_distance := route_metrics.total_distance
  let fuel_savings_percent := route_metrics.fuel_savings
  let fuel_consumption_per_km : ℝ := 0.35
  let co2_per_liter : ℝ := 2.7
  let fuel_consumed := total_distance * fuel_consumption_per_km
  let fuel_saved := fuel_consumed * (fuel_savings_percent / 100)
  let co2_emitted := fuel_consumed * co2_per_liter
  let co2_saved := fuel_saved * co2_per_liter
  { fuel_consumed_liters := pyround2 fuel_consumed
    fuel_saved_liters := pyround2 fuel_saved
    co2_emitted_kg := pyround2 co2_emitted
    co2_saved_kg := pyround2 co2_saved
    environmental_score := min 100 (50 + fuel_savings_percent * 2) }

/-- A concrete collection-point record used for witnesses and counterexamples. -/
noncomputable def demo_bin (k : ℕ) : Bin :=
  { id := "bin_" ++ toString k
    name := "Bin " ++ toString k
    coordinates := ⟨-23.55 + (k : ℝ) / 100, -46.63⟩
    fill_level := 80
    waste_type := "general" }

/-- Ten concrete collection points (for the 10-points / 3-vehicles scenario). -/
noncomputable def demo_bins10 : List Bin := (List.range 10).map demo_bin

/-! ## Basic facts about the haversine distance and the rounding helpers -/

theorem sin_half_sq_swap (x y : ℝ) :
    Real.sin ((x - y) / 2) ^ 2 = Real.sin ((y - x) / 2) ^ 2 := by
  rw [show (x - y) / 2 = -((y - x) / 2) by ring, Real.sin_neg]
  ring

theorem calculate_distance_symm (a b : GeoPoint) :
    calculate_distance a b = calculate_distance b a := by
  simp only [calculate_distance]
  rw [sin_half_sq_swap (radians b.lat) (radians a.lat),
    sin_half_sq_swap (radians b.lon) (radians a.lon),
    mul_comm (Real.cos (radians a.lat)) (Real.cos (radians b.lat))]

theorem calculate_distance_self (a : GeoPoint) : calculate_distance a a = 0 := by
  simp [calculate_distance]

theorem calculate_distance_nonneg (a b : GeoPoint) : 0 ≤ calculate_distance a b := by
  simp only [calculate_distance]
  have h1 : 0 ≤ Real.arcsin (Real.sqrt (Real.sin ((radians b.lat - radians a.lat) / 2) ^ 2 +
      Real.cos (radians a.lat) * Real.cos (radians b.lat) *
        Real.sin ((radians b.lon - radians a.lon) / 2) ^ 2)) :=
    Real.arcsin_nonneg.mpr (Real.sqrt_nonneg _)
  nlinarith

theorem path_distance_nonneg (cur : GeoPoint) (cs : List GeoPoint) :
    0 ≤ path_distance cur cs := by
  induction cs generalizing cur with
  | nil => simp [path_distance]
  | cons c cs ih =>
    simp only [path_distance]
    have := calculate_distance_nonneg cur c
    have := ih c
    linarith

theorem total_distance_raw_nonneg (route : List Bin) : 0 ≤ total_distance_raw route :=
  path_distance_nonneg _ _

theorem round_nonneg_of_nonneg {x : ℝ} (h : 0 ≤ x) : (0 : ℤ) ≤ round x := by
  rw [round_eq, Int.le_floor]
  push_cast
  linarith

theorem pyround1_nonneg {x : ℝ} (h : 0 ≤ x) : 0 ≤ pyround1 x := by
  unfold pyround1
  have h10 : (0 : ℝ) ≤ x * 10 := by linarith
  have := round_nonneg_of_nonneg h10
  have hc : (0 : ℝ) ≤ ((round (x * 10) : ℤ) : ℝ) := by exact_mod_cast this
  linarith

/-- C8: the haversine distance is symmetric, zero on identical points, and
nonnegative, for all coordinate pairs. -/
theorem claim_c8_distance_symm_zero_nonneg (a b : GeoPoint) :
    calculate_distance a b = calculate_distance b a ∧
    calculate_distance a a = 0 ∧
    0 ≤ calculate_distance a b :=
  ⟨calculate_distance_symm a b, calculate_distance_self a, calculate_distance_nonneg a b⟩

theorem total_distance_raw_singleton (p : Bin) :
    total_distance_raw [p] = 2 * calculate_distance base_location p.coordinates := by
  simp only [total_distance_raw, List.map, List.cons_append, List.nil_append, path_distance]
  rw [calculate_distance_symm p.coordinates base_location]
  ring

theorem metrics_total_distance_nonneg (route : List Bin) (f : ℝ) :
    0 ≤ (calculate_route_metrics route f).total_distance := by
  unfold calculate_route_metrics
  split
  · simp [empty_metrics]
  · exact pyround1_nonneg (total_distance_raw_nonneg route)

/-- C6: the metrics' total distance is nonnegative, and for a single-point
sequence the computed total distance is exactly twice the depot-to-point
haversine distance (the dict's `total_distance` field is that value rounded
to one decimal for display). -/
theorem claim_c6_total_distance (route : List Bin) (p : Bin) (f : ℝ) :
    0 ≤ (calculate_route_metrics route f).total_distance ∧
    total_distance_raw [p] = 2 * calculate_distance base_location p.coordinates ∧
    (calculate_route_metrics [p] f).total_distance =
      pyround1 (2 * calculate_distance base_location p.coordinates) := by
  refine ⟨metrics_total_distance_nonneg route f, total_distance_raw_singleton p, ?_⟩
  rw [calculate_route_metrics]
  simp [total_distance_raw_singleton p]

/-! ## The greedy selection `min(unvisited, key=distance)` and the main loop -/

theorem min_by_key_cons (cur : GeoPoint) (b x : Bin) (xs : List Bin) :
    min_by_key cur b (x :: xs) =
      min_by_key cur
        (if calculate_distance cur x.coordinates < calculate_distance cur b.coordinates
         then x else b) xs := rfl

theorem min_by_key_mem (cur : GeoPoint) (b : Bin) (bs : List Bin) :
    min_by_key cur b bs ∈ b :: bs := by
  induction bs generalizing b with
  | nil => simp [min_by_key]
  | cons x xs ih =>
    rw [min_by_key_cons]
    by_cases h : calculate_distance cur x.coordinates < calculate_distance cur b.coordinates
    · rw [if_pos h]
      have := ih x
      simp only [List.mem_cons] at this ⊢
      tauto
    · rw [if_neg h]
      have := ih b
      simp only [List.mem_cons] at this ⊢
      tauto

theorem min_by_key_le (cur : GeoPoint) (b : Bin) (bs : List Bin) :
    ∀ x ∈ b :: bs, calculate_distance cur (min_by_key cur b bs).coordinates ≤
      calculate_distance cur x.coordinates := by
  induction bs generalizing b with
  | nil =>
    intro x hx
    simp only [List.mem_cons, List.not_mem_nil, or_false] at hx
    subst hx
    exact le_rfl
  | cons x xs ih =>
    intro y hy
    rw [min_by_key_cons]
    simp only [List.mem_cons] at hy
    by_cases h : calculate_distance cur x.coordinates < calculate_distance cur b.coordinates
    · rw [if_pos h]
      have hx : calculate_distance cur (min_by_key cur x xs).coordinates ≤
          calculate_distance cur x.coordinates := ih x x (by simp)
      rcases hy with hy | hy | hy
      · rw [hy]; exact le_trans hx h.le
      · rw [hy]; exact hx
      · exact ih x y (List.mem_cons_of_mem _ hy)
    · rw [if_neg h]
      push_neg at h
      have hb : calculate_distance cur (min_by_key cur b xs).coordinates ≤
          calculate_distance cur b.coordinates := ih b b (by simp)
      rcases hy with hy | hy | hy
      · rw [hy]; exact hb
      · rw [hy]; exact le_trans hb h
      · exact ih b y (List.mem_cons_of_mem _ hy)

theorem min_by_key_first (cur : GeoPoint) (b : Bin) (bs : List Bin) :
    ∃ l₁ l₂, b :: bs = l₁ ++ min_by_key cur b bs :: l₂ ∧
      ∀ x ∈ l₁, calculate_distance cur (min_by_key cur b bs).coordinates <
        calculate_distance cur x.coordinates := by
  induction bs generalizing b with
  | nil => exact ⟨[], [], rfl, by simp⟩
  | cons x xs ih =>
    rw [min_by_key_cons]
    by_cases h : calculate_distance cur x.coordinates < calculate_distance cur b.coordinates
    · rw [if_pos h]
      obtain ⟨l₁, l₂, hdec, hstrict⟩ := ih x
      refine ⟨b :: l₁, l₂, by rw [List.cons_append, ← hdec], ?_⟩
      intro y hy
      simp only [List.mem_cons] at hy
      rcases hy with hy | hy
      · subst hy
        exact lt_of_le_of_lt (min_by_key_le cur x xs x (by simp)) h
      · exact hstrict y hy
    · rw [if_neg h]
      push_neg at h
      obtain ⟨l₁, l₂, hdec, hstrict⟩ := ih b
      cases l₁ with
      | nil =>
        simp only [List.nil_append, List.cons.injEq] at hdec
        obtain ⟨hb, _⟩ := hdec
        refine ⟨[], x :: xs, ?_, by simp⟩
        rw [List.nil_append, ← hb]
      | cons c l₁ =>
        simp only [List.cons_append, List.cons.injEq] at hdec
        obtain ⟨hcb, hxs⟩ := hdec
        subst hcb
        refine ⟨b :: x :: l₁, l₂,
          by rw [List.cons_append, List.cons_append, ← hxs], ?_⟩
        have hmb : calculate_distance cur (min_by_key cur b xs).coordinates <
            calculate_distance cur b.coordinates := hstrict b (by simp)
        intro y hy
        simp only [List.mem_cons] at hy
        rcases hy with hy | hy | hy
        · subst hy; exact hmb
        · subst hy; exact lt_of_lt_of_le hmb h
        · exact hstrict y (List.mem_cons_of_mem _ hy)

theorem min_by_key_erase_decomp (cur : GeoPoint) (b : Bin) (bs : List Bin) :
    ∃ l₁ l₂, b :: bs = l₁ ++ min_by_key cur b bs :: l₂ ∧
      (∀ x ∈ l₁, calculate_distance cur (min_by_key cur b bs).coordinates <
        calculate_distance cur x.coordinates) ∧
      (b :: bs).erase (min_by_key cur b bs) = l₁ ++ l₂ := by
  obtain ⟨l₁, l₂, hdec, hstrict⟩ := min_by_key_first cur b bs
  have hnotin : min_by_key cur b bs ∉ l₁ := by
    intro hmem
    exact lt_irrefl _ (hstrict _ hmem)
  refine ⟨l₁, l₂, hdec, hstrict, ?_⟩
  rw [hdec, List.erase_append_right _ hnotin, List.erase_cons_head]

theorem nn_loop_nil (cur : GeoPoint) : nn_loop cur [] = [] := rfl

theorem erase_min_length (cur : GeoPoint) (b : Bin) (bs : List Bin) :
    ((b :: bs).erase (min_by_key cur b bs)).length = bs.length := by
  rw [List.length_erase_of_mem (min_by_key_mem cur b bs)]
  simp

theorem nn_loop_cons (cur : GeoPoint) (b : Bin) (bs : List Bin) :
    nn_loop cur (b :: bs) = min_by_key cur b bs ::
      nn_loop (min_by_key cur b bs).coordinates ((b :: bs).erase (min_by_key cur b bs)) := by
  simp only [nn_loop, List.length_cons, erase_min_length]
  rw [nn_go]

theorem nn_loop_perm_aux :
    ∀ (n : ℕ) (cur : GeoPoint) (pool : List Bin), pool.length = n →
      (nn_loop cur pool).Perm pool := by
  intro n
  induction n using Nat.strong_induction_on with
  | _ n ih =>
    intro cur pool hn
    match pool with
    | [] => simp [nn_loop_nil]
    | b :: bs =>
      rw [nn_loop_cons]
      have hm := min_by_key_mem cur b bs
      have hlen := erase_min_length cur b bs
      have hrec := ih bs.length (by simp at hn; omega) (min_by_key cur b bs).coordinates
        ((b :: bs).erase (min_by_key cur b bs)) hlen
      exact (hrec.cons _).trans (List.perm_cons_erase hm).symm

theorem nn_loop_perm (cur : GeoPoint) (pool : List Bin) :
    (nn_loop cur pool).Perm pool :=
  nn_loop_perm_aux pool.length cur pool rfl

theorem nearest_neighbor_perm (bins : List Bin) :
    (nearest_neighbor_algorithm bins).Perm bins := by
  unfold nearest_neighbor_algorithm
  split
  · next h =>
    rw [List.isEmpty_iff] at h
    simp [h]
  · exact nn_loop_perm base_location bins

/-- C2: the nearest-neighbor sequencer returns a permutation of its input:
same records, same multiplicities, nothing added, nothing dropped. -/
theorem claim_c2_output_is_permutation (bins : List Bin) :
    (nearest_neighbor_algorithm bins).Perm bins :=
  nearest_neighbor_perm bins

/-- C5: at every step of the greedy loop, the point appended is a pool element
at minimal haversine distance from the current location; every pool element
listed before it is strictly farther (so ties go to the first in input order);
and the loop continues from the chosen point's location with exactly that
occurrence removed from the pool. -/
theorem claim_c5_greedy_nearest_first (cur : GeoPoint) (b : Bin) (bs : List Bin) :
    ∃ l₁ l₂, b :: bs = l₁ ++ min_by_key cur b bs :: l₂ ∧
      (∀ x ∈ b :: bs, calculate_distance cur (min_by_key cur b bs).coordinates ≤
        calculate_distance cur x.coordinates) ∧
      (∀ x ∈ l₁, calculate_distance cur (min_by_key cur b bs).coordinates <
        calculate_distance cur x.coordinates) ∧
      nn_loop cur (b :: bs) = min_by_key cur b bs ::
        nn_loop (min_by_key cur b bs).coordinates (l₁ ++ l₂) := by
  obtain ⟨l₁, l₂, hdec, hstrict, herase⟩ := min_by_key_erase_decomp cur b bs
  exact ⟨l₁, l₂, hdec, min_by_key_le cur b bs, hstrict, by rw [nn_loop_cons, herase]⟩

/-! ## The annotation loop of `calculate_optimal_route` and its effects -/

theorem annotate_stop_core (t tt : ℝ) (n i : ℕ) (s : Bin) :
    (annotate_stop t tt n i s).core = s.core := rfl

theorem annotate_stops_map_core (t tt : ℝ) (n : ℕ) :
    ∀ (i : ℕ) (l : List Bin),
      (annotate_stops t tt n i l).map Bin.core = l.map Bin.core := by
  intro i l
  induction l generalizing i with
  | nil => rfl
  | cons s ss ih => simp [annotate_stops, annotate_stop_core, ih]

theorem annotate_stops_mem (t tt : ℝ) (n : ℕ) :
    ∀ (i : ℕ) (l : List Bin), ∀ s ∈ annotate_stops t tt n i l,
      s.estimated_time = some service_time_minutes ∧ s.sequence ≠ none := by
  intro i l
  induction l generalizing i with
  | nil => simp [annotate_stops]
  | cons a as ih =>
    intro s hs
    simp only [annotate_stops, List.mem_cons] at hs
    rcases hs with hs | hs
    · rw [hs]
      exact ⟨rfl, by simp [annotate_stop]⟩
    · exact ih (i + 1) s hs

theorem metrics_stops (route : List Bin) (f : ℝ) :
    (calculate_route_metrics route f).stops = route := by
  unfold calculate_route_metrics
  split
  · next h =>
    rw [List.isEmpty_iff] at h
    rw [h]
    rfl
  · rfl

theorem optimal_route_stops_core_perm (bins : List Bin) (f t : ℝ) :
    ((calculate_optimal_route bins f t).stops.map Bin.core).Perm (bins.map Bin.core) := by
  unfold calculate_optimal_route
  split
  · next h =>
    rw [List.isEmpty_iff] at h
    simp [h, empty_metrics]
  · simp only [annotate_stops_map_core, metrics_stops]
    exact (nearest_neighbor_perm bins).map Bin.core

theorem optimal_route_stops_annotated (bins : List Bin) (f t : ℝ) :
    ∀ s ∈ (calculate_optimal_route bins f t).stops,
      s.estimated_time = some service_time_minutes ∧ s.sequence ≠ none := by
  unfold calculate_optimal_route
  split
  · simp [empty_metrics]
  · intro s hs
    exact annotate_stops_mem _ _ _ _ _ s hs

/-- C3 counterexample: `calculate_optimal_route` does mutate its input
records.  The caller's record has no `sequence` key before the call, and
(through the shallow-copy aliasing of the stop dicts) carries `sequence = 1`
after it. -/
theorem claim_c3_counterexample :
    (demo_bin 0).sequence = none ∧
    ((calculate_optimal_route [demo_bin 0] 1.25 0).stops.map fun s => s.sequence) =
      [some 1] := by
  refine ⟨rfl, ?_⟩
  have h1 : nearest_neighbor_algorithm [demo_bin 0] = [demo_bin 0] := by
    unfold nearest_neighbor_algorithm
    rw [if_neg (by simp)]
    rw [nn_loop_cons]
    simp [min_by_key, nn_loop_nil]
  unfold calculate_optimal_route
  rw [if_neg (by simp)]
  simp only [h1, metrics_stops]
  simp [annotate_stops, annotate_stop]

/-- C3 (amended): `nearest_neighbor_algorithm` and `calculate_route_metrics`
leave the input records untouched, but `calculate_optimal_route` mutates every
serviced record in place, writing its `estimated_time`, `sequence` and
`arrival_time` keys; all caller-supplied fields (id, name, coordinates,
fill level, waste type) are preserved. -/
theorem claim_c3_mutation_scope (route bins : List Bin) (f t : ℝ) :
    (calculate_route_metrics route f).stops = route ∧
    ((calculate_optimal_route bins f t).stops.map Bin.core).Perm (bins.map Bin.core) ∧
    ∀ s ∈ (calculate_optimal_route bins f t).stops,
      s.estimated_time = some service_time_minutes ∧ s.sequence ≠ none :=
  ⟨metrics_stops route f, optimal_route_stops_core_perm bins f t,
    optimal_route_stops_annotated bins f t⟩

/-! ## Empty input and the `num_trucks <= 0` guard -/

/-- C9: an empty point list is not an error: single-route optimization returns
the all-zero plan (distance 0, time 0, no stops, empty polyline), and the
multi-vehicle allocator returns an empty fleet plan for every vehicle count. -/
theorem claim_c9_empty_input_zero_plan (num : ℤ) (f t : ℝ) :
    (calculate_optimal_route [] f t).total_distance = 0 ∧
    (calculate_optimal_route [] f t).estimated_time = 0 ∧
    (calculate_optimal_route [] f t).fuel_savings = 0 ∧
    (calculate_optimal_route [] f t).stops = [] ∧
    (calculate_optimal_route [] f t).coordinates = [] ∧
    optimize_multi_truck_routes [] num f t = [] := by
  refine ⟨?_, ?_, ?_, ?_, ?_, ?_⟩ <;>
    simp [calculate_optimal_route, optimize_multi_truck_routes, empty_metrics]

/-- C1 counterexample: with a nonempty point list and `num_vehicles = 0` (or
negative), `optimize_multi_truck_routes` raises nothing and silently returns
the empty fleet plan — the same value returned for empty input — instead of
failing with an InvalidConfiguration error. -/
theorem claim_c1_counterexample :
    optimize_multi_truck_routes [demo_bin 0] 0 1.25 0 = [] ∧
    optimize_multi_truck_routes [demo_bin 0] (-3) 1.25 0 = [] ∧
    optimize_multi_truck_routes [] 2 1.25 0 = [] := by
  refine ⟨?_, ?_, ?_⟩ <;> norm_num [optimize_multi_truck_routes]

/-- C1 (amended): `num_vehicles ≤ 0` is not surfaced as an error: the
allocator's guard makes it silently return the empty fleet plan, the default
it also returns for empty input. -/
theorem claim_c1_nonpositive_vehicles_silent (bins : List Bin) (num : ℤ) (f t : ℝ)
    (h : num ≤ 0) : optimize_multi_truck_routes bins num f t = [] := by
  unfold optimize_multi_truck_routes
  rw [if_pos (Or.inr h)]

theorem claim_c1_witness :
    (0 : ℤ) ≤ 0 ∧ optimize_multi_truck_routes [demo_bin 0] 0 1.25 0 = [] :=
  ⟨le_refl 0, claim_c1_nonpositive_vehicles_silent [demo_bin 0] 0 1.25 0 (le_refl 0)⟩

/-! ## Score bounds -/

theorem metrics_fuel_savings_nonneg (route : List Bin) (f : ℝ) (hf : 1 ≤ f) :
    0 ≤ (calculate_route_metrics route f).fuel_savings := by
  unfold calculate_route_metrics
  split
  · simp [empty_metrics]
  · apply pyround1_nonneg
    have hd : 0 ≤ total_distance_raw route := total_distance_raw_nonneg route
    have h1 : 0 ≤ total_distance_raw route * f - total_distance_raw route := by nlinarith
    have h2 : 0 ≤ total_distance_raw route * f := by nlinarith
    exact mul_nonneg (div_nonneg h1 h2) (by norm_num)

theorem optimal_route_fuel_savings_nonneg (bins : List Bin) (f t : ℝ) (hf : 1 ≤ f) :
    0 ≤ (calculate_optimal_route bins f t).fuel_savings := by
  unfold calculate_optimal_route
  split
  · simp [empty_metrics]
  · exact metrics_fuel_savings_nonneg _ f hf

theorem optimal_route_efficiency_eq (bins : List Bin) (f t : ℝ)
    (h : ¬bins.isEmpty = true) :
    (calculate_optimal_route bins f t).route_efficiency_score =
      some (min 95 (70 +
        (calculate_route_metrics (nearest_neighbor_algorithm bins) f).fuel_savings)) := by
  unfold calculate_optimal_route
  rw [if_neg h]

/-- C7: the environmental score of any optimizer-produced metrics lies in
[0, 100], and the efficiency score of any optimized route plan lies in
[0, 95] (whenever the plan carries one). -/
theorem claim_c7_scores_bounded (route : List Bin) (f t : ℝ)
    (hf1 : 1.2 ≤ f) (hf2 : f ≤ 1.3) :
    (0 ≤ (calculate_environmental_impact
            (calculate_optimal_route route f t)).environmental_score ∧
      (calculate_environmental_impact
            (calculate_optimal_route route f t)).environmental_score ≤ 100) ∧
    ∀ e, (calculate_optimal_route route f t).route_efficiency_score = some e →
      0 ≤ e ∧ e ≤ 95 := by
  have hf : (1 : ℝ) ≤ f := by linarith
  have hfs := optimal_route_fuel_savings_nonneg route f t hf
  constructor
  · constructor
    · refine le_min (by norm_num) ?_
      linarith
    · exact min_le_left _ _
  · intro e he
    by_cases hemp : route.isEmpty = true
    · rw [calculate_optimal_route, if_pos hemp] at he
      simp [empty_metrics] at he
    · rw [optimal_route_efficiency_eq route f t hemp] at he
      have hms := metrics_fuel_savings_nonneg (nearest_neighbor_algorithm route) f hf
      have he2 : e = min 95 (70 +
          (calculate_route_metrics (nearest_neighbor_algorithm route) f).fuel_savings) := by
        exact (Option.some.injEq _ _).mp he.symm
      rw [he2]
      exact ⟨le_min (by norm_num) (by linarith), min_le_left _ _⟩

theorem claim_c7_witness :
    ((1.2 : ℝ) ≤ 1.25 ∧ (1.25 : ℝ) ≤ 1.3) ∧
    ((0 ≤ (calculate_environmental_impact
            (calculate_optimal_route [demo_bin 0] 1.25 0)).environmental_score ∧
      (calculate_environmental_impact
            (calculate_optimal_route [demo_bin 0] 1.25 0)).environmental_score ≤ 100) ∧
    ∀ e, (calculate_optimal_route [demo_bin 0] 1.25 0).route_efficiency_score = some e →
      0 ≤ e ∧ e ≤ 95) :=
  ⟨⟨by norm_num, by norm_num⟩,
    claim_c7_scores_bounded [demo_bin 0] 1.25 0 (by norm_num) (by norm_num)⟩


/-! ## The contiguous partition of `optimize_multi_truck_routes` -/

theorem list_take_add (l : List Bin) (a b : ℕ) :
    l.take (a + b) = l.take a ++ (l.drop a).take b := by
  induction a generalizing l with
  | zero => simp
  | succ a ih =>
    cases l with
    | nil => simp
    | cons x xs =>
      simp only [Nat.succ_add, List.take_succ_cons, List.drop_succ_cons,
        List.cons_append, ih]

theorem join_take_slices (l : List Bin) (q : ℕ) :
    ∀ k : ℕ,
      ((List.range k).map (fun i => (l.drop (i * q)).take q)).flatten = l.take (k * q) := by
  intro k
  induction k with
  | zero => simp
  | succ k ih =>
    rw [List.range_succ, List.map_append, List.flatten_append, ih]
    simp only [List.map_cons, List.map_nil, List.flatten_cons, List.flatten_nil,
      List.append_nil]
    rw [← list_take_add]
    congr 1
    ring

theorem truck_slice_final (bins : List Bin) (m q : ℕ) :
    truck_slice bins (m + 1) q m = bins.drop (m * q) := by
  unfold truck_slice
  rw [if_pos (by omega)]

theorem truck_slice_nonfinal (bins : List Bin) (m q i : ℕ) (h : i < m) :
    truck_slice bins (m + 1) q i = (bins.drop (i * q)).take q := by
  unfold truck_slice
  rw [if_neg (by omega)]

theorem truck_slices_join (bins : List Bin) (m : ℕ) :
    (truck_slices bins (m + 1)).flatten = bins := by
  unfold truck_slices
  rw [List.range_succ, List.map_append,
    List.map_congr_left fun i hi =>
      truck_slice_nonfinal bins m (bins.length / (m + 1)) i (List.mem_range.mp hi)]
  simp only [List.map_cons, List.map_nil]
  rw [List.flatten_append, join_take_slices]
  simp only [List.flatten_cons, List.flatten_nil, List.append_nil, truck_slice_final]
  exact List.take_append_drop _ _

theorem truck_slices_length (bins : List Bin) (n : ℕ) :
    (truck_slices bins n).length = n := by
  simp [truck_slices]

theorem truck_slices_sizes (bins : List Bin) (m : ℕ) :
    (truck_slices bins (m + 1)).map List.length =
      List.replicate m (bins.length / (m + 1)) ++
        [bins.length / (m + 1) + bins.length % (m + 1)] := by
  unfold truck_slices
  rw [List.range_succ, List.map_append, List.map_append]
  congr 1
  · rw [List.map_map]
    refine List.eq_replicate_iff.mpr ⟨by simp, ?_⟩
    intro b hb
    simp only [List.mem_map, List.mem_range, Function.comp_apply] at hb
    obtain ⟨i, hi, hbe⟩ := hb
    rw [← hbe, truck_slice_nonfinal bins m (bins.length / (m + 1)) i hi]
    rw [List.length_take, List.length_drop]
    have h1 : bins.length / (m + 1) * (m + 1) ≤ bins.length := Nat.div_mul_le_self _ _
    have h2 : (i + 1) * (bins.length / (m + 1)) ≤ (m + 1) * (bins.length / (m + 1)) :=
      Nat.mul_le_mul_right _ (by omega)
    have h3 : i * (bins.length / (m + 1)) + bins.length / (m + 1) ≤ bins.length := by
      calc i * (bins.length / (m + 1)) + bins.length / (m + 1)
          = (i + 1) * (bins.length / (m + 1)) := by ring
        _ ≤ (m + 1) * (bins.length / (m + 1)) := h2
        _ = bins.length / (m + 1) * (m + 1) := by ring
        _ ≤ bins.length := h1
    exact min_eq_left (Nat.le_sub_of_add_le (by rw [Nat.add_comm]; exact h3))
  · simp only [List.map_cons, List.map_nil, truck_slice_final, List.length_drop]
    have h1 := Nat.div_add_mod bins.length (m + 1)
    have h3 : m * (bins.length / (m + 1)) + bins.length / (m + 1) =
        (m + 1) * (bins.length / (m + 1)) := by ring
    congr 1
    generalize hA : m * (bins.length / (m + 1)) = A at *
    generalize hB : (m + 1) * (bins.length / (m + 1)) = B at *
    generalize hq : bins.length / (m + 1) = q at *
    generalize hr : bins.length % (m + 1) = r at *
    omega

theorem filterMap_body_stops_core_perm (bins : List Bin) (n q : ℕ) (f t : ℝ) :
    ∀ idxs : List ℕ,
      (((idxs.filterMap (fun truck_id =>
          let truck_bins := truck_slice bins n q truck_id
          if truck_bins.isEmpty then none
          else some (add_truck_fields (calculate_optimal_route truck_bins f t)
            (truck_id + 1)))).map (fun p => p.stops.map Bin.core)).flatten).Perm
        (((idxs.map (truck_slice bins n q)).flatten).map Bin.core) := by
  intro idxs
  induction idxs with
  | nil => simp
  | cons i is ih =>
    rw [List.map_cons, List.flatten_cons, List.map_append]
    by_cases h : (truck_slice bins n q i).isEmpty = true
    · rw [List.filterMap_cons_none (by simp only [if_pos h])]
      have he : truck_slice bins n q i = [] := List.isEmpty_iff.mp h
      rw [he]
      simpa using ih
    · have hsome : (fun truck_id =>
          let truck_bins := truck_slice bins n q truck_id
          if truck_bins.isEmpty then none
          else some (add_truck_fields (calculate_optimal_route truck_bins f t)
            (truck_id + 1))) i
          = some (add_truck_fields (calculate_optimal_route (truck_slice bins n q i) f t)
            (i + 1)) := by
        simp only [if_neg h]
      simp only [List.filterMap_cons, hsome]
      rw [List.map_cons, List.flatten_cons]
      refine List.Perm.append ?_ ih
      show ((calculate_optimal_route (truck_slice bins n q i) f t).stops.map Bin.core).Perm _
      exact optimal_route_stops_core_perm _ f t

theorem omtr_stops_core_perm (bins : List Bin) (num : ℤ) (f t : ℝ) (hn : 0 < num) :
    (((optimize_multi_truck_routes bins num f t).map
        (fun p => p.stops.map Bin.core)).flatten).Perm (bins.map Bin.core) := by
  by_cases hb : bins.isEmpty = true
  · rw [List.isEmpty_iff] at hb
    simp [optimize_multi_truck_routes, hb]
  · have hcond : ¬(bins.isEmpty = true ∨ num ≤ 0) := not_or.mpr ⟨hb, by omega⟩
    rw [optimize_multi_truck_routes, if_neg hcond]
    have hjoin :
        ((List.range num.toNat).map
          (truck_slice bins num.toNat (bins.length / num.toNat))).flatten = bins := by
      obtain ⟨m, hmeq⟩ : ∃ m, num.toNat = m + 1 := ⟨num.toNat - 1, by omega⟩
      rw [hmeq]
      exact truck_slices_join bins m
    refine (filterMap_body_stops_core_perm bins num.toNat (bins.length / num.toNat) f t
      (List.range num.toNat)).trans ?_
    rw [hjoin]

/-- C4: the allocator makes `num_vehicles` contiguous slices of the input in
input order — every non-final slice of size `len / num_vehicles`, the final
slice additionally taking the remainder — and the returned plans' stop sets
(up to the in-place annotations) are pairwise disjoint with union the input
point set: their concatenation is a permutation of the input. -/
theorem claim_c4_contiguous_partition (bins : List Bin) (num : ℤ) (f t : ℝ)
    (hn : 0 < num) :
    (truck_slices bins num.toNat).flatten = bins ∧
    (truck_slices bins num.toNat).length = num.toNat ∧
    (truck_slices bins num.toNat).map List.length =
      List.replicate (num.toNat - 1) (bins.length / num.toNat) ++
        [bins.length / num.toNat + bins.length % num.toNat] ∧
    (((optimize_multi_truck_routes bins num f t).map
        (fun p => p.stops.map Bin.core)).flatten).Perm (bins.map Bin.core) := by
  obtain ⟨m, hmeq⟩ : ∃ m, num.toNat = m + 1 := ⟨num.toNat - 1, by omega⟩
  refine ⟨?_, truck_slices_length bins num.toNat,
    ?_, omtr_stops_core_perm bins num f t hn⟩
  · rw [hmeq]
    exact truck_slices_join bins m
  · rw [hmeq]
    simpa using truck_slices_sizes bins m

theorem claim_c4_witness :
    (0 : ℤ) < 3 ∧
    ((truck_slices demo_bins10 (3 : ℤ).toNat).flatten = demo_bins10 ∧
     (truck_slices demo_bins10 (3 : ℤ).toNat).length = (3 : ℤ).toNat ∧
     (truck_slices demo_bins10 (3 : ℤ).toNat).map List.length =
       List.replicate ((3 : ℤ).toNat - 1) (demo_bins10.length / (3 : ℤ).toNat) ++
         [demo_bins10.length / (3 : ℤ).toNat + demo_bins10.length % (3 : ℤ).toNat] ∧
     (((optimize_multi_truck_routes demo_bins10 3 1.25 0).map
         (fun p => p.stops.map Bin.core)).flatten).Perm (demo_bins10.map Bin.core)) ∧
    demo_bins10.length = 10 ∧
    List.replicate ((3 : ℤ).toNat - 1) (demo_bins10.length / (3 : ℤ).toNat) ++
        [demo_bins10.length / (3 : ℤ).toNat + demo_bins10.length % (3 : ℤ).toNat] =
      [3, 3, 4] :=
  ⟨by norm_num, claim_c4_contiguous_partition demo_bins10 3 1.25 0 (by norm_num),
    by simp [demo_bins10], by simp [demo_bins10]⟩

/-! ## Over-provisioned fleets: more vehicles than points -/

theorem filterMap_single_truck (bins : List Bin) (m : ℕ) (f t : ℝ)
    (hb : ¬bins.isEmpty = true) (hm : bins.length < m + 1) :
    (List.range (m + 1)).filterMap (fun truck_id =>
        let truck_bins := truck_slice bins (m + 1) (bins.length / (m + 1)) truck_id
        if truck_bins.isEmpty then none
        else some (add_truck_fields (calculate_optimal_route truck_bins f t)
          (truck_id + 1)))
      = [add_truck_fields (calculate_optimal_route bins f t) (m + 1)] := by
  have hq : bins.length / (m + 1) = 0 := Nat.div_eq_of_lt hm
  rw [List.range_succ, List.filterMap_append]
  have h1 : (List.range m).filterMap (fun truck_id =>
      let truck_bins := truck_slice bins (m + 1) (bins.length / (m + 1)) truck_id
      if truck_bins.isEmpty then none
      else some (add_truck_fields (calculate_optimal_route truck_bins f t)
        (truck_id + 1))) = [] := by
    refine List.filterMap_eq_nil_iff.mpr ?_
    intro i hi
    have hslice : truck_slice bins (m + 1) (bins.length / (m + 1)) i = [] := by
      rw [truck_slice_nonfinal bins m _ i (List.mem_range.mp hi), hq, List.take_zero]
    simp only [hslice]
    rfl
  rw [h1, List.nil_append]
  have hfin : truck_slice bins (m + 1) (bins.length / (m + 1)) m = bins := by
    rw [truck_slice_final, hq, Nat.mul_zero, List.drop_zero]
  have hsome : (fun truck_id =>
      let truck_bins := truck_slice bins (m + 1) (bins.length / (m + 1)) truck_id
      if truck_bins.isEmpty then none
      else some (add_truck_fields (calculate_optimal_route truck_bins f t)
        (truck_id + 1))) m
      = some (add_truck_fields (calculate_optimal_route bins f t) (m + 1)) := by
    simp only [hfin, if_neg hb]
  simp only [List.filterMap_cons, hsome, List.filterMap_nil]

theorem omtr_single_truck (bins : List Bin) (num : ℤ) (f t : ℝ)
    (hb : bins ≠ []) (hn : (bins.length : ℤ) < num) :
    optimize_multi_truck_routes bins num f t =
      [add_truck_fields (calculate_optimal_route bins f t) num.toNat] := by
  have hb' : ¬bins.isEmpty = true := by
    simpa [List.isEmpty_iff] using hb
  have hlen1 : 0 < bins.length := List.length_pos.mpr hb
  have hcond : ¬(bins.isEmpty = true ∨ num ≤ 0) := not_or.mpr ⟨hb', by omega⟩
  rw [optimize_multi_truck_routes, if_neg hcond]
  obtain ⟨m, hmeq⟩ : ∃ m, num.toNat = m + 1 := ⟨num.toNat - 1, by omega⟩
  have hm : bins.length < m + 1 := by omega
  show (List.range num.toNat).filterMap _ = _
  rw [hmeq]
  rw [filterMap_single_truck bins m f t hb' hm, ← hmeq]

/-- C10: with a nonempty point list and strictly more vehicles than points,
the per-vehicle quota `len // num` is zero, so every non-final vehicle gets an
empty slice and produces no plan; the allocator returns exactly one plan,
tagged with the last vehicle's id, whose stops cover all input points. -/
theorem claim_c10_more_vehicles_than_points (bins : List Bin) (num : ℤ) (f t : ℝ)
    (hb : bins ≠ []) (hn : (bins.length : ℤ) < num) :
    optimize_multi_truck_routes bins num f t =
      [add_truck_fields (calculate_optimal_route bins f t) num.toNat] ∧
    ((add_truck_fields (calculate_optimal_route bins f t) num.toNat).stops.map
      Bin.core).Perm (bins.map Bin.core) ∧
    (add_truck_fields (calculate_optimal_route bins f t) num.toNat).truck_id =
      some ("truck_" ++ toString num.toNat) := by
  refine ⟨omtr_single_truck bins num f t hb hn, ?_, rfl⟩
  show ((calculate_optimal_route bins f t).stops.map Bin.core).Perm (bins.map Bin.core)
  exact optimal_route_stops_core_perm bins f t

theorem claim_c10_witness :
    ([demo_bin 0] ≠ [] ∧ ((List.length [demo_bin 0] : ℤ) < 2)) ∧
    (optimize_multi_truck_routes [demo_bin 0] 2 1.25 0 =
        [add_truck_fields (calculate_optimal_route [demo_bin 0] 1.25 0) (2 : ℤ).toNat] ∧
      ((add_truck_fields (calculate_optimal_route [demo_bin 0] 1.25 0)
          (2 : ℤ).toNat).stops.map Bin.core).Perm ([demo_bin 0].map Bin.core) ∧
      (add_truck_fields (calculate_optimal_route [demo_bin 0] 1.25 0)
          (2 : ℤ).toNat).truck_id = some ("truck_" ++ toString (2 : ℤ).toNat)) :=
  ⟨⟨by simp, by norm_num⟩,
    claim_c10_more_vehicles_than_points [demo_bin 0] 2 1.25 0 (by simp) (by norm_num)⟩
